import Mathlib

/-!
Verification of the sourcegraph-mcp-ts repository.

This file shallowly embeds the components of the repository that the
specification's testable properties are about:

* the SSE session registry and message router of the HTTP transport
  (the `app.get("/sse")`, `app.post("/messages")` and `req.on("close")`
  handlers of the SSE server entry point, which keep a JS
  `Map` called `connections` from session id to SSE transport handle);
* the tool handlers registered by `createServer` (`search-code`,
  `search-commits`, `search-diffs`, `search-github-repos`,
  `natural-search`), their credential guards and their query builders;
* `naturalLanguageSearch` from `src/services/natural-language.ts`;
* `convertQueryToSourcegraphSyntax` from `src/services/llm.ts` together
  with `analyzeQuery`, `parseSourcegraphQuery` and `parseWithRules` from
  the formatter module, including an executable model of the JavaScript
  regular expressions those functions use.

The runtime is single threaded and event driven, so registry state is
modelled by explicit state passing; network calls and LLM calls are
asynchronous suspension points whose outcomes are modelled as explicit
`Except`-valued oracles passed to the embedded functions.
-/

/-! ## The session registry (SSE transport)

A transport handle is opaque in the source (an `SSEServerTransport`
object); only its identity matters for routing, so it is modelled as a
natural number.  The JS `Map` named `connections` is modelled as an
association list in insertion order: `Map.set` updates an existing key
in place (keeping its position, as JS `Map` iteration order does) and
otherwise appends, `Map.delete` removes the binding of the key, and
iteration order is list order, so `connections.values().next().value`
is the handle of the head entry. -/

abbrev Handle : Type := Nat

/-- The `connections` map of the SSE server: session id to transport handle,
in insertion order. -/
abbrev Registry : Type := List (String × Handle)

/-- `connections.get` / `connections.has`: first binding of the key. -/
def lookupReg : Registry → String → Option Handle
  | [], _ => none
  | (k, v) :: rest, s => if k = s then some v else lookupReg rest s

/-- `connections.set`: update the existing binding in place (JS `Map.set`
keeps the original insertion position) or append a new one. -/
def setEntry : Registry → String → Handle → Registry
  | [], s, h => [(s, h)]
  | (k, v) :: rest, s, h =>
    if k = s then (s, h) :: rest else (k, v) :: setEntry rest s h

/-- The `req.on("close")` handler: `if (connections.has(sessionId))
connections.delete(sessionId)`.  A JS `Map` holds at most one binding per
key, so deleting the key is removing every binding of it from the
association list. -/
def closeSession (sid : String) : Registry → Registry
  | [] => []
  | (k, v) :: rest =>
    if k = sid then closeSession sid rest else (k, v) :: closeSession sid rest

/-- Outcome of the `POST /messages` handler, as far as routing is
concerned: either the payload is forwarded to a transport handle
(`transport.handlePostMessage`), or the handler answers HTTP 400
"No active connections" and forwards to nothing. -/
inductive RouteResult where
  | routed (h : Handle)
  | noActive
deriving DecidableEq, Repr

/-- The fallback branch of the `POST /messages` handler: if the map is
empty answer 400, else use `connections.values().next().value`, the first
entry in iteration order. -/
def fallbackRoute : Registry → RouteResult
  | [] => RouteResult.noActive
  | (_, h) :: _ => RouteResult.routed h

/-- The routing decision of the `POST /messages` handler.  The source
tests `if (!sessionId || !connections.has(sessionId))`: an absent or
empty (falsy) session id, or one with no binding, selects the fallback;
otherwise the payload goes to `connections.get(sessionId)`. -/
def routeMessage (sid? : Option String) (reg : Registry) : RouteResult :=
  match sid? with
  | none => fallbackRoute reg
  | some s =>
    if s = "" then fallbackRoute reg
    else
      match lookupReg reg s with
      | none => fallbackRoute reg
      | some h => RouteResult.routed h

/-- State-passing form of the whole `POST /messages` handler: the handler
reads the `connections` map but never mutates it, so the registry it
returns is the one it was given. -/
def handleMessages (sid? : Option String) (reg : Registry) :
    Registry × RouteResult :=
  (reg, routeMessage sid? reg)

/-- Result of a `GET /sse` connection attempt. -/
inductive OpenResult where
  /-- `server.connect` succeeded; the response is the held-open SSE stream. -/
  | streaming (sid : String)
  /-- `server.connect` threw and headers were not yet sent:
  `res.status(500).end(...)`. -/
  | error500 (msg : String)
  /-- `server.connect` threw after headers were sent: the error is only
  logged. -/
  | loggedOnly (msg : String)
deriving DecidableEq, Repr

/-- The session id minted by the `GET /sse` handler:
`req.query.sessionId as string || random.toString(36)... + "-" + Date.now().toString(36)`.
An absent or empty (falsy) client-supplied id is replaced by the
generated one, whose two fragments are joined by a hyphen. -/
def effectiveSessionId (requested : Option String) (randFrag timeFrag : String) :
    String :=
  match requested with
  | none => randFrag ++ "-" ++ timeFrag
  | some s => if s = "" then randFrag ++ "-" ++ timeFrag else s

/-- The `GET /sse` handler.  In source order: the transport is
constructed, `connections.set(sessionId, transport)` stores it, and only
then `await server.connect(transport)` attaches the protocol server.
`connect` is an asynchronous suspension point whose outcome is the
`connect` argument.  When it throws, the catch block logs and, if headers
are not yet sent, answers 500 - it does not touch the registry. -/
def openSession (reg : Registry) (requested : Option String)
    (randFrag timeFrag : String) (h : Handle)
    (connect : Except String Unit) (headersSent : Bool) :
    Registry × OpenResult :=
  let sid := effectiveSessionId requested randFrag timeFrag
  let reg' := setEntry reg sid h
  match connect with
  | Except.ok _ => (reg', OpenResult.streaming sid)
  | Except.error e =>
    (reg', if headersSent then OpenResult.loggedOnly e else OpenResult.error500 e)

/-- The three kinds of event the SSE server reacts to, with their effect
on the `connections` map. -/
inductive ServerEvent where
  | sseConnect (requested : Option String) (randFrag timeFrag : String)
      (h : Handle) (connect : Except String Unit) (headersSent : Bool)
  | postMessage (sid? : Option String)
  | connClose (sid : String)

/-- Registry evolution: only `GET /sse` inserts, only the close event
removes, and `POST /messages` leaves the registry alone. -/
def serverStep : ServerEvent → Registry → Registry
  | ServerEvent.sseConnect req r t h c hs, reg => (openSession reg req r t h c hs).1
  | ServerEvent.postMessage sid?, reg => (handleMessages sid? reg).1
  | ServerEvent.connClose sid, reg => closeSession sid reg

def isOpenOrClose : ServerEvent → Bool
  | ServerEvent.sseConnect _ _ _ _ _ _ => true
  | ServerEvent.postMessage _ => false
  | ServerEvent.connClose _ => true


/-! ## Tool handlers of `createServer`

The MCP SDK invokes each registered tool handler with validated
arguments.  A handler resolves to a response object holding a list of
content blocks (each of the source's blocks is `{type: "text", text}`)
and an optional `isError` flag.  The Sourcegraph executor
`executeSourcegraphSearch` performs one HTTPS POST and resolves to the
parsed body or rejects; the result formatter turns the hit list into
markdown.  Executor plus formatter are this system's external
collaborators, so one call is abstracted as an `SgOutcome` oracle: the
promise rejected (`thrown`), the body carried a GraphQL `errors` array
(`apiErrors`, serialized), or it succeeded and formatting produced the
`formatted` markdown string. -/

inductive ContentBlock where
  | text (s : String)
deriving DecidableEq, Repr

structure McpToolResponse where
  content : List ContentBlock
  isError : Option Bool := none
deriving DecidableEq, Repr

/-- A response made of exactly one text content block. -/
def isWellFormed (r : McpToolResponse) : Bool :=
  match r.content with
  | [ContentBlock.text _] => true
  | _ => false

/-- `SOURCEGRAPH_URL` / `SOURCEGRAPH_TOKEN` as the handlers see them
(`sgUrl || process.env.SOURCEGRAPH_URL`; the module-level and call-time
reads agree while the environment is not mutated mid-run). -/
structure SgConfig where
  url : Option String
  token : Option String

/-- JS falsiness of an optional environment string: unset or empty. -/
def strFalsy : Option String → Bool
  | none => true
  | some s => s == ""

/-- The shared credential guard `if (!effectiveUrl || !effectiveToken)`. -/
def credsMissing (cfg : SgConfig) : Bool := strFalsy cfg.url || strFalsy cfg.token

/-- The configuration-error payload each search tool returns from its
credential guard. -/
def configErrorResponse : McpToolResponse :=
  { content := [ContentBlock.text "Error: Sourcegraph URL or token not configured. Please set SOURCEGRAPH_URL and SOURCEGRAPH_TOKEN environment variables."],
    isError := some true }

/-- Outcome of one `executeSourcegraphSearch` call (plus formatting). -/
inductive SgOutcome where
  | thrown (msg : String)
  | apiErrors (errsJson : String)
  | ok (formatted : String)

inductive SearchType where
  | file
  | commit
  | diff
deriving DecidableEq, Repr

def SearchType.str : SearchType → String
  | SearchType.file => "file"
  | SearchType.commit => "commit"
  | SearchType.diff => "diff"

/-! JS `String.prototype.includes`, modelled on character lists. -/

def subPrefAt : List Char → List Char → Bool
  | [], _ => true
  | _ :: _, [] => false
  | p :: ps, c :: cs => p == c && subPrefAt ps cs

def containsSubL (pat : List Char) : List Char → Bool
  | [] => subPrefAt pat []
  | c :: cs => subPrefAt pat (c :: cs) || containsSubL pat cs

/-- Number of positions at which `pat` occurs in the list. -/
def countSubL (pat : List Char) : List Char → Nat
  | [] => 0
  | c :: cs => (if subPrefAt pat (c :: cs) then 1 else 0) + countSubL pat cs

def containsSubstr (s pat : String) : Bool := containsSubL pat.data s.data

def countSubstr (s pat : String) : Nat := countSubL pat.data s.data

/-- The query construction of the `search-code` handler: append
`type:<type>` when the query has no `type:` directive yet, then append
`count:20` when it has no `count:` directive. -/
def buildSearchCodeQuery (query : String) (tp : SearchType) : String :=
  let q1 := if containsSubstr query "type:" then query
            else query ++ " type:" ++ tp.str
  if containsSubstr q1 "count:" then q1 else q1 ++ " count:20"

/-- The `search-code` tool handler.  First component: the response.
Second component: the query string handed to `executeSourcegraphSearch`,
`none` when the executor (the only network call) is never invoked. -/
def searchCodeRun (query : String) (tp : SearchType) (cfg : SgConfig)
    (net : SgOutcome) : McpToolResponse × Option String :=
  if credsMissing cfg then (configErrorResponse, none)
  else
    let finalQuery := buildSearchCodeQuery query tp
    match net with
    | SgOutcome.thrown e =>
      ({ content := [ContentBlock.text ("Error searching Sourcegraph: " ++ e)],
         isError := some true }, some finalQuery)
    | SgOutcome.apiErrors errs =>
      ({ content := [ContentBlock.text ("Sourcegraph API Error: " ++ errs)],
         isError := some true }, some finalQuery)
    | SgOutcome.ok formatted =>
      ({ content := [ContentBlock.text formatted] }, some finalQuery)

/-- The query construction of the `search-commits` handler; each optional
parameter is appended only when truthy (present and non-empty). -/
def buildSearchCommitsQuery (author msg after : Option String) : String :=
  let q0 := "type:commit"
  let q1 := match author with
    | some a => if a = "" then q0 else q0 ++ " author:" ++ a
    | none => q0
  let q2 := match msg with
    | some m => if m = "" then q1 else q1 ++ " message:" ++ m
    | none => q1
  let q3 := match after with
    | some d => if d = "" then q2 else q2 ++ " after:" ++ d
    | none => q2
  q3 ++ " count:20"

/-- The `search-commits` tool handler. -/
def searchCommitsRun (author msg after : Option String) (cfg : SgConfig)
    (net : SgOutcome) : McpToolResponse × Option String :=
  if credsMissing cfg then (configErrorResponse, none)
  else
    let finalQuery := buildSearchCommitsQuery author msg after
    match net with
    | SgOutcome.thrown e =>
      ({ content := [ContentBlock.text ("Error searching Sourcegraph commits: " ++ e)],
         isError := some true }, some finalQuery)
    | SgOutcome.apiErrors errs =>
      ({ content := [ContentBlock.text ("Sourcegraph API Error: " ++ errs)],
         isError := some true }, some finalQuery)
    | SgOutcome.ok formatted =>
      ({ content := [ContentBlock.text formatted] }, some finalQuery)

/-- The query construction of the `search-diffs` handler. -/
def buildSearchDiffsQuery (query author after : Option String) : String :=
  let q0 := "type:diff"
  let q1 := match query with
    | some q => if q = "" then q0 else q0 ++ " " ++ q
    | none => q0
  let q2 := match author with
    | some a => if a = "" then q1 else q1 ++ " author:" ++ a
    | none => q1
  let q3 := match after with
    | some d => if d = "" then q2 else q2 ++ " after:" ++ d
    | none => q2
  q3 ++ " count:20"

/-- The `search-diffs` tool handler. -/
def searchDiffsRun (query author after : Option String) (cfg : SgConfig)
    (net : SgOutcome) : McpToolResponse × Option String :=
  if credsMissing cfg then (configErrorResponse, none)
  else
    let finalQuery := buildSearchDiffsQuery query author after
    match net with
    | SgOutcome.thrown e =>
      ({ content := [ContentBlock.text ("Error searching Sourcegraph diffs: " ++ e)],
         isError := some true }, some finalQuery)
    | SgOutcome.apiErrors errs =>
      ({ content := [ContentBlock.text ("Sourcegraph API Error: " ++ errs)],
         isError := some true }, some finalQuery)
    | SgOutcome.ok formatted =>
      ({ content := [ContentBlock.text formatted] }, some finalQuery)

/-- The query construction of the `search-github-repos` handler: split
the comma-separated repo list, trim each entry, wrap each in a
`repo:^github\.com/<entry>$` filter and join with spaces. -/
def buildGithubReposQuery (query repos : String) (tp : SearchType) : String :=
  let repoList := (repos.splitOn ",").map (fun r => r.trim)
  let repoFilters :=
    String.intercalate " "
      (repoList.map (fun repo => "repo:^github\\.com/" ++ repo ++ "$"))
  query ++ " " ++ repoFilters ++ " type:" ++ tp.str ++ " count:20"

/-- The `search-github-repos` tool handler. -/
def searchGithubReposRun (query repos : String) (tp : SearchType) (cfg : SgConfig)
    (net : SgOutcome) : McpToolResponse × Option String :=
  if credsMissing cfg then (configErrorResponse, none)
  else
    let finalQuery := buildGithubReposQuery query repos tp
    match net with
    | SgOutcome.thrown e =>
      ({ content := [ContentBlock.text ("Error searching GitHub repositories: " ++ e)],
         isError := some true }, some finalQuery)
    | SgOutcome.apiErrors errs =>
      ({ content := [ContentBlock.text ("Sourcegraph API Error: " ++ errs)],
         isError := some true }, some finalQuery)
    | SgOutcome.ok formatted =>
      ({ content := [ContentBlock.text formatted] }, some finalQuery)

/-! ## JS regular expressions used by the natural-language translator

`parseWithRules`, `parseSourcegraphQuery` and the query analysis use a
fixed set of JS regular expressions.  They are modelled executably on
character lists: `\w` is `[A-Za-z0-9_]`, `\b` holds between two
characters of which exactly one is a word character (ends of the string
count as non-word), `\s` is whitespace, matching is leftmost (scanning
positions left to right) with alternatives tried in written order, and a
greedy `CLASS+` followed by `\b`, for a class containing every word
character, keeps the run up to its last word character (shorter cuts are
not reachable by backtracking because the following character is then
still in the class). -/

def isWordChar (c : Char) : Bool := c.isAlphanum || c == '_'

def isWordOpt : Option Char → Bool
  | none => false
  | some c => isWordChar c

def isSpaceChar (c : Char) : Bool :=
  c == ' ' || c == '\t' || c == '\n' || c == '\r' || c == '\x0b' || c == '\x0c'

def isAuthorChar (c : Char) : Bool := isWordChar c || c == '.' || c == '-'

def isRepoChar (c : Char) : Bool := isAuthorChar c || c == '/'

def dquote : Char := Char.ofNat 34

def squote : Char := Char.ofNat 39

def isQuoteChar (c : Char) : Bool := c == dquote || c == squote

/-- Case-insensitive literal match at the head; returns the rest. -/
def ciPref : List Char → List Char → Option (List Char)
  | [], s => some s
  | _ :: _, [] => none
  | p :: ps, c :: cs => if p.toLower == c.toLower then ciPref ps cs else none

/-- Case-sensitive literal match at the head; returns the rest. -/
def csPref : List Char → List Char → Option (List Char)
  | [], s => some s
  | _ :: _, [] => none
  | p :: ps, c :: cs => if p == c then csPref ps cs else none

def prefOf (ci : Bool) : List Char → List Char → Option (List Char) :=
  if ci then ciPref else csPref

/-- One word-bounded alternative of a literal alternation
(`\b(lit1|lit2|...)\b`) tried at the start of `s`; `prev` is the
character before the current position.  Returns the rest after the
alternative. -/
def tryAltAt (ci : Bool) (prev : Option Char) (alt : List Char) (s : List Char) :
    Option (List Char) :=
  match alt with
  | [] => none
  | a :: _ =>
    if isWordOpt prev == isWordChar a then none
    else
      match prefOf ci alt s with
      | none => none
      | some rest =>
        let last := (alt.getLast?).getD a
        if isWordChar last == isWordOpt rest.head? then none else some rest

/-- Leftmost match of a position-wise matcher (JS regex scanning). -/
def scanFirst {α : Type} (f : Option Char → List Char → Option α) :
    Option Char → List Char → Option α
  | _, [] => none
  | prev, c :: rest =>
    match f prev (c :: rest) with
    | some x => some x
    | none => scanFirst f (some c) rest

/-- `test` of a word-bounded literal alternation. -/
def hasAltMatch (ci : Bool) (alts : List (List Char)) (prev : Option Char)
    (s : List Char) : Bool :=
  (scanFirst (fun p t => alts.findSome? fun alt => tryAltAt ci p alt t) prev s).isSome

/-- `replace(re, "")` for a single (non-global) regex: remove the
leftmost match, where the matcher returns the rest after the match. -/
def removeFirst (f : Option Char → List Char → Option (List Char)) :
    Option Char → List Char → List Char
  | _, [] => []
  | prev, c :: rest =>
    match f prev (c :: rest) with
    | some rem => rem
    | none => c :: removeFirst f (some c) rest

/-- Drop leading whitespace. -/
def dropLeadingWs : List Char → List Char
  | [] => []
  | c :: rest => if isSpaceChar c then dropLeadingWs rest else c :: rest

/-- `\s+`: at least one whitespace character, maximal munch. -/
def wsPlus : List Char → Option (List Char)
  | [] => none
  | c :: rest => if isSpaceChar c then some (dropLeadingWs rest) else none

/-- Maximal run of characters of a class, and the rest. -/
def takeRun (p : Char → Bool) : List Char → List Char × List Char
  | [] => ([], [])
  | c :: rest =>
    if p c then
      let (r, rr) := takeRun p rest
      (c :: r, rr)
    else ([], c :: rest)

/-- Greedy `CLASS+\b` backtracking for a class containing every word
character: keep the run up to its last word character; the second
component is the dropped tail. -/
def stripTrailingNonWord (r : List Char) : List Char × List Char :=
  let rev := r.reverse
  ((rev.dropWhile fun c => !isWordChar c).reverse,
   (rev.takeWhile fun c => !isWordChar c).reverse)

/-- `\b(kw1|kw2|...)\s+(CLASS+)\b` (flag i) tried at the start of `s`;
returns the capture.  Used with classes containing every word character. -/
def tryKwRunAt (kws : List (List Char)) (cls : Char → Bool)
    (prev : Option Char) (s : List Char) : Option (List Char) :=
  kws.findSome? fun kw =>
    match kw with
    | [] => none
    | k0 :: _ =>
      if isWordOpt prev == isWordChar k0 then none
      else
        match ciPref kw s with
        | none => none
        | some r1 =>
          match wsPlus r1 with
          | none => none
          | some r2 =>
            match takeRun cls r2 with
            | ([], _) => none
            | (run, _) =>
              match stripTrailingNonWord run with
              | ([], _) => none
              | (kept, _) => some kept

def takeDigits : Nat → List Char → Option (List Char × List Char)
  | 0, s => some ([], s)
  | _ + 1, [] => none
  | n + 1, c :: rest =>
    if c.isDigit then
      match takeDigits n rest with
      | some (ds, r) => some (c :: ds, r)
      | none => none
    else none

/-- `\b(?:after|since)\s+(\d{4}-\d{2}-\d{2})\b` (flag i) tried at the
start of `s`; returns the captured date. -/
def tryDateAt (prev : Option Char) (s : List Char) : Option (List Char) :=
  ["after".data, "since".data].findSome? fun kw =>
    match kw with
    | [] => none
    | k0 :: _ =>
      if isWordOpt prev == isWordChar k0 then none
      else
        match ciPref kw s with
        | none => none
        | some r1 =>
          match wsPlus r1 with
          | none => none
          | some r2 =>
            match takeDigits 4 r2 with
            | none => none
            | some (d1, r3) =>
              match r3 with
              | '-' :: r4 =>
                match takeDigits 2 r4 with
                | none => none
                | some (d2, r5) =>
                  match r5 with
                  | '-' :: r6 =>
                    match takeDigits 2 r6 with
                    | none => none
                    | some (d3, r7) =>
                      if isWordOpt r7.head? then none
                      else some (d1 ++ '-' :: d2 ++ '-' :: d3)
                  | _ => none
              | _ => none

/-- `\bin\s+repo(?:sitory)?\s+([\w\/.-]+)\b` (flags ig) tried at the
start of `s`: returns the capture and the rest after the full match.
The optional `sitory` is taken greedily; if the following `\s+` then
fails the group is given back (in which case `\s+` fails anyway, the
next character being `s`). -/
def tryRepoCaptureAt (prev : Option Char) (s : List Char) :
    Option (List Char × List Char) :=
  if isWordOpt prev then none
  else
    match ciPref "in".data s with
    | none => none
    | some r1 =>
      match wsPlus r1 with
      | none => none
      | some r2 =>
        match ciPref "repo".data r2 with
        | none => none
        | some r3 =>
          let afterRepo :=
            match ciPref "sitory".data r3 with
            | some r4 =>
              match wsPlus r4 with
              | some r5 => some r5
              | none => wsPlus r3
            | none => wsPlus r3
          match afterRepo with
          | none => none
          | some r6 =>
            match takeRun isRepoChar r6 with
            | ([], _) => none
            | (run, rest) =>
              match stripTrailingNonWord run with
              | ([], _) => none
              | (kept, dropped) => some (kept, dropped ++ rest)

/-- All matches of the global repo regex of `parseWithRules`, leftmost
and non-overlapping (scanning resumes after each full match).  The fuel
is an upper bound on the scan steps; every step consumes at least one
character, so `length + 1` suffices. -/
def collectReposAux : Nat → Option Char → List Char → List (List Char)
  | 0, _, _ => []
  | _ + 1, _, [] => []
  | fuel + 1, prev, c :: rest =>
    match tryRepoCaptureAt prev (c :: rest) with
    | some (cap, rem) =>
      cap :: collectReposAux fuel (some ((cap.getLast?).getD c)) rem
    | none => collectReposAux fuel (some c) rest

def collectRepos (s : List Char) : List (List Char) :=
  collectReposAux (s.length + 1) none s

/-- Match an interpolated text fragment used verbatim inside
`new RegExp(...)` (flag i): letters case-insensitively, `.` as a
wildcard, everything else literally.  Returns the last matched character
and the rest. -/
def matchPatCI : List Char → Char → List Char → Option (Char × List Char)
  | [], last, s => some (last, s)
  | _ :: _, _, [] => none
  | p :: ps, _, c :: cs =>
    if p == '.' || p.toLower == c.toLower then matchPatCI ps c cs else none

/-- `\b(?:kw1|kw2|...)\s+<pat>\b` (flag i, `pat` interpolated) tried at
the start of `s`; returns the rest after the match. -/
def tryKwPatAt (kws : List (List Char)) (pat : List Char) (prev : Option Char)
    (s : List Char) : Option (List Char) :=
  kws.findSome? fun kw =>
    match kw with
    | [] => none
    | k0 :: _ =>
      if isWordOpt prev == isWordChar k0 then none
      else
        match ciPref kw s with
        | none => none
        | some r1 =>
          match wsPlus r1 with
          | none => none
          | some r2 =>
            match pat, r2 with
            | [], _ => none
            | _ :: _, [] => none
            | p :: ps, c :: cs =>
              if p == '.' || p.toLower == c.toLower then
                match matchPatCI ps c cs with
                | none => none
                | some (last, rest) =>
                  if isWordChar last == isWordOpt rest.head? then none
                  else some rest
              else none

/-- `\bin\s+repo(?:sitory)?\s+<pat>\b` (flag i, `pat` interpolated) tried
at the start of `s`; returns the rest after the match. -/
def tryRepoPatAt (pat : List Char) (prev : Option Char) (s : List Char) :
    Option (List Char) :=
  if isWordOpt prev then none
  else
    match ciPref "in".data s with
    | none => none
    | some r1 =>
      match wsPlus r1 with
      | none => none
      | some r2 =>
        match ciPref "repo".data r2 with
        | none => none
        | some r3 =>
          let afterRepo :=
            match ciPref "sitory".data r3 with
            | some r4 =>
              match wsPlus r4 with
              | some r5 => some r5
              | none => wsPlus r3
            | none => wsPlus r3
          match afterRepo with
          | none => none
          | some r6 =>
            match pat, r6 with
            | [], _ => none
            | _ :: _, [] => none
            | p :: ps, c :: cs =>
              if p == '.' || p.toLower == c.toLower then
                match matchPatCI ps c cs with
                | none => none
                | some (last, rest) =>
                  if isWordChar last == isWordOpt rest.head? then none
                  else some rest
              else none

/-- `replace(/\s+/g, " ")`: collapse every whitespace run to one space. -/
def collapseWs : List Char → List Char
  | [] => []
  | [c] => [if isSpaceChar c then ' ' else c]
  | c :: d :: rest =>
    if isSpaceChar c && isSpaceChar d then collapseWs (d :: rest)
    else (if isSpaceChar c then ' ' else c) :: collapseWs (d :: rest)

/-- JS `trim()`. -/
def jsTrim (s : List Char) : List Char :=
  dropLeadingWs ((dropLeadingWs s.reverse).reverse)

/-! ## The natural-language translator -/

/-- The record `analyzeQuery`, `parseSourcegraphQuery` and
`parseWithRules` return. -/
structure ParseResult where
  type : String
  query : String
  author : Option String
  after : Option String
  repos : List String
  originalQuery : String
deriving DecidableEq, Repr

def commitWordAlts : List (List Char) := ["commit".data, "commits".data]

def diffWordAlts : List (List Char) :=
  ["diff".data, "diffs".data, "change".data, "changes".data, "pr".data,
   "prs".data, "pull request".data, "pull requests".data]

def fillerAlts : List (List Char) :=
  ["search for".data, "find".data, "look for".data]

def typeIndicatorAlts : List (List Char) :=
  ["commit".data, "commits".data, "diff".data, "diffs".data, "change".data,
   "changes".data, "pr".data, "prs".data, "pull request".data,
   "pull requests".data]

def authorKws : List (List Char) := ["by".data, "from".data, "author".data]

def dateKws : List (List Char) := ["after".data, "since".data]

/-- `parseWithRules`: the legacy rule-based fallback parse.  Search type
from word-bounded commit/diff indicator words; author from
`\b(?:by|from|author)\s+([\w.-]+)\b/i`; date from
`\b(?:after|since)\s+(\d{4}-\d{2}-\d{2})\b/i`; repositories from the
global `\bin\s+repo(?:sitory)?\s+([\w\/.-]+)\b/ig`; then the matched
metadata, one leading filler phrase and one type indicator word are
removed from the query, whitespace is collapsed and the result trimmed. -/
def parseWithRules (query : String) : ParseResult :=
  let ql := query.data
  let searchType :=
    if hasAltMatch true commitWordAlts none ql then "commit"
    else if hasAltMatch true diffWordAlts none ql then "diff"
    else "file"
  let author? := (scanFirst (tryKwRunAt authorKws isAuthorChar) none ql).map
    (fun cs => String.mk cs)
  let after? := (scanFirst tryDateAt none ql).map (fun cs => String.mk cs)
  let reposL := collectRepos ql
  let sq1 := match author? with
    | some a => removeFirst (tryKwPatAt authorKws a.data) none ql
    | none => ql
  let sq2 := match after? with
    | some d => removeFirst (tryKwPatAt dateKws d.data) none sq1
    | none => sq1
  let sq3 := reposL.foldl (fun acc repo => removeFirst (tryRepoPatAt repo) none acc) sq2
  let sq4 := removeFirst
    (fun p t => fillerAlts.findSome? fun alt => tryAltAt true p alt t) none sq3
  let sq5 := removeFirst
    (fun p t => typeIndicatorAlts.findSome? fun alt => tryAltAt true p alt t) none sq4
  let sq6 := jsTrim (collapseWs sq5)
  { type := searchType, query := String.mk sq6, author := author?,
    after := after?, repos := reposL.map (fun cs => String.mk cs),
    originalQuery := query }

/-- `\btype:(\w+)\b` tried at the start of `s` (case-sensitive): returns
the capture and the rest after the full match. -/
def tryTypeAt (prev : Option Char) (s : List Char) :
    Option (List Char × List Char) :=
  if isWordOpt prev then none
  else
    match csPref "type:".data s with
    | none => none
    | some r1 =>
      match takeRun isWordChar r1 with
      | ([], _) => none
      | (run, rest) => some (run, rest)

/-- `\bauthor:([\w.-]+)\b` tried at the start of `s` (case-sensitive):
returns the capture and the rest after the full match. -/
def tryAuthorClauseAt (prev : Option Char) (s : List Char) :
    Option (List Char × List Char) :=
  if isWordOpt prev then none
  else
    match csPref "author:".data s with
    | none => none
    | some r1 =>
      match takeRun isAuthorChar r1 with
      | ([], _) => none
      | (run, rest) =>
        match stripTrailingNonWord run with
        | ([], _) => none
        | (kept, dropped) => some (kept, dropped ++ rest)

/-- `\b<lit>(["'][^"']+["']|\S+)\b` tried at the start of `s`
(case-sensitive; used with `after:` and `repo:`).  The first alternative
is a quoted fragment whose trailing `\b` (after the non-word closing
quote) requires the next character to be a word character; the second is
a non-whitespace run cut at its last word character.  Returns the
capture (quotes included) and the rest after the full match. -/
def tryClauseQSAt (lit : List Char) (prev : Option Char) (s : List Char) :
    Option (List Char × List Char) :=
  if isWordOpt prev then none
  else
    match csPref lit s with
    | none => none
    | some r1 =>
      let alt1 : Option (List Char × List Char) :=
        match r1 with
        | [] => none
        | q1 :: r2 =>
          if isQuoteChar q1 then
            match takeRun (fun c => !isQuoteChar c) r2 with
            | ([], _) => none
            | (body, r3) =>
              match r3 with
              | q2 :: r4 =>
                if isWordOpt r4.head? then some (q1 :: (body ++ [q2]), r4)
                else none
              | [] => none
          else none
      match alt1 with
      | some res => some res
      | none =>
        match takeRun (fun c => !isSpaceChar c) r1 with
        | ([], _) => none
        | (run, rest) =>
          match stripTrailingNonWord run with
          | ([], _) => none
          | (kept, dropped) => some (kept, dropped ++ rest)

/-- The removal regex for the date clause,
`\bafter:["'][^"']+["']|\bafter:\S+\b` (its first alternative has no
trailing `\b`), tried at the start of `s`; returns the rest after the
match. -/
def tryAfterRemoveAt (prev : Option Char) (s : List Char) :
    Option (List Char) :=
  if isWordOpt prev then none
  else
    match csPref "after:".data s with
    | none => none
    | some r1 =>
      let alt1 : Option (List Char) :=
        match r1 with
        | [] => none
        | q1 :: r2 =>
          if isQuoteChar q1 then
            match takeRun (fun c => !isQuoteChar c) r2 with
            | ([], _) => none
            | (_, r3) =>
              match r3 with
              | _ :: r4 => some r4
              | [] => none
          else none
      match alt1 with
      | some rem => some rem
      | none =>
        match takeRun (fun c => !isSpaceChar c) r1 with
        | ([], _) => none
        | (run, rest) =>
          match stripTrailingNonWord run with
          | ([], _) => none
          | (_, dropped) => some (dropped ++ rest)

/-- All matches of `\brepo:(["'][^"']+["']|\S+)\b/g`, captures with
quotes stripped, scanning resuming after each full match. -/
def collectSgReposAux : Nat → Option Char → List Char → List (List Char)
  | 0, _, _ => []
  | _ + 1, _, [] => []
  | fuel + 1, prev, c :: rest =>
    match tryClauseQSAt "repo:".data prev (c :: rest) with
    | some (cap, rem) =>
      cap.filter (fun ch => !isQuoteChar ch)
        :: collectSgReposAux fuel (some ((cap.getLast?).getD c)) rem
    | none => collectSgReposAux fuel (some c) rest

def collectSgRepos (s : List Char) : List (List Char) :=
  collectSgReposAux (s.length + 1) none s

/-- `parseSourcegraphQuery`: extract type, author, date and repository
components from an LLM-produced Sourcegraph query.  Each `match` runs
against the original converted query while the successive `replace`s run
against the evolving `searchQuery`, each followed by `trim()`; the
repository clauses are not removed. -/
def parseSourcegraphQuery (sourcegraphQuery originalQuery : String) : ParseResult :=
  let src := sourcegraphQuery.data
  let typeRes := scanFirst tryTypeAt none src
  let searchType := match typeRes with
    | some (cap, _) => String.mk cap
    | none => "file"
  let sq1 := match typeRes with
    | some _ =>
      jsTrim (removeFirst (fun p t => (tryTypeAt p t).map (fun pr => pr.2)) none src)
    | none => src
  let authorRes := scanFirst tryAuthorClauseAt none src
  let author? := authorRes.map (fun pr => String.mk pr.1)
  let sq2 := match authorRes with
    | some _ =>
      jsTrim (removeFirst (fun p t => (tryAuthorClauseAt p t).map (fun pr => pr.2)) none sq1)
    | none => sq1
  let afterRes := scanFirst (tryClauseQSAt "after:".data) none src
  let after? := afterRes.map
    (fun pr => String.mk (pr.1.filter (fun ch => !isQuoteChar ch)))
  let sq3 := match afterRes with
    | some _ => jsTrim (removeFirst tryAfterRemoveAt none sq2)
    | none => sq2
  let reposL := collectSgRepos src
  let sq4 := jsTrim (collapseWs sq3)
  { type := searchType, query := String.mk sq4, author := author?,
    after := after?, repos := reposL.map (fun cs => String.mk cs),
    originalQuery := originalQuery }

/-- The LLM-related environment variables as `src/services/llm.ts` reads
them at module load. -/
structure LlmEnv where
  provider : Option String
  openAiKey : Option String
  anthropicKey : Option String

/-- The guard of `convertQueryToSourcegraphSyntax` is NOT taken: a
provider is configured and at least one key is set, so the function
reaches a provider call (or throws before it). -/
def llmConfigured (env : LlmEnv) : Bool :=
  !(strFalsy env.provider || (strFalsy env.openAiKey && strFalsy env.anthropicKey))

/-- `convertQueryToSourcegraphSyntax` of `src/services/llm.ts`.  With no
provider configured or no key set at all it returns the query unchanged;
otherwise it dispatches on the provider: a missing key for the selected
provider throws, an unsupported provider throws, and otherwise the
outcome is the provider HTTPS call (`providerCall`, an oracle:
`Except.error` when the axios promise rejects, `Except.ok completion`
when it resolves), whose completion is trimmed. -/
def convertQueryToSourcegraphSyntax (env : LlmEnv) (naturalQuery : String)
    (providerCall : Except String String) : Except String String :=
  if strFalsy env.provider || (strFalsy env.openAiKey && strFalsy env.anthropicKey) then
    Except.ok naturalQuery
  else
    let provider := match env.provider with
      | none => "openai"
      | some p => if p = "" then "openai" else p
    if provider = "openai" then
      if strFalsy env.openAiKey then Except.error "OPENAI_API_KEY is not set"
      else providerCall.map (fun completion => completion.trim)
    else if provider = "anthropic" then
      if strFalsy env.anthropicKey then Except.error "ANTHROPIC_API_KEY is not set"
      else providerCall.map (fun completion => completion.trim)
    else Except.error ("Unsupported LLM provider: " ++ provider)

/-- `analyzeQuery`: convert the natural query with the LLM and parse the
produced Sourcegraph query; when anything in that try-block throws, fall
back to the rule-based parse.  Total: it never propagates the
exception. -/
def analyzeQuery (env : LlmEnv) (query : String)
    (providerCall : Except String String) : ParseResult :=
  match convertQueryToSourcegraphSyntax env query providerCall with
  | Except.ok sgq => parseSourcegraphQuery sgq query
  | Except.error _ => parseWithRules query

/-- `naturalLanguageSearch` of `src/services/natural-language.ts`: analyze
the query, assemble the search query (type always appended; author and
date only for commit/diff searches; repository filters; `count:20`),
dispatch on the search type (an unrecognized type throws, landing in the
outer catch) and run the Sourcegraph call.  First component: the
response; second: the query string sent to the Sourcegraph API (`none`
when the network is never reached). -/
def naturalLanguageSearch (env : LlmEnv) (naturalQuery : String)
    (providerCall : Except String String) (net : SgOutcome) :
    McpToolResponse × Option String :=
  let a := analyzeQuery env naturalQuery providerCall
  let tp := a.type
  let s1 := a.query ++ " type:" ++ tp
  let s2 := match a.author with
    | some au =>
      if au != "" && (tp == "commit" || tp == "diff") then s1 ++ " author:" ++ au
      else s1
    | none => s1
  let s3 := match a.after with
    | some d =>
      if d != "" && (tp == "commit" || tp == "diff") then s2 ++ " after:" ++ d
      else s2
    | none => s2
  let s4 :=
    if a.repos.isEmpty then s3
    else
      s3 ++ " " ++ String.intercalate " "
        (a.repos.map fun repo =>
          if containsSubstr repo "/" then "repo:^github\\.com/" ++ repo ++ "$"
          else "repo:" ++ repo)
  let searchQuery := s4 ++ " count:20"
  if tp == "file" || tp == "commit" || tp == "diff" then
    match net with
    | SgOutcome.thrown e =>
      ({ content := [ContentBlock.text ("Error processing natural language search: " ++ e)],
         isError := some true }, some searchQuery)
    | SgOutcome.apiErrors errs =>
      ({ content := [ContentBlock.text ("Sourcegraph API Error: " ++ errs)],
         isError := some true }, some searchQuery)
    | SgOutcome.ok formatted =>
      ({ content := [ContentBlock.text formatted] }, some searchQuery)
  else
    ({ content := [ContentBlock.text
         ("Error processing natural language search: Unsupported search type: " ++ tp)],
       isError := some true }, none)

/-- The `natural-search` tool handler: the credential guard, then
`naturalLanguageSearch` (the `max_results` parameter is accepted and
ignored by the source handler). -/
def naturalSearchRun (query : String) (_maxResults : Option Nat) (cfg : SgConfig)
    (env : LlmEnv) (providerCall : Except String String) (net : SgOutcome) :
    McpToolResponse × Option String :=
  if credsMissing cfg then (configErrorResponse, none)
  else naturalLanguageSearch env query providerCall net

/-- The `test-nl-search` tool handler boundary.  The try-block builds a
report string from `analyzeQuery`'s result and performs no network call;
its outcome is the `body` oracle (in the deployed JS the un-awaited
promise makes a property access throw a TypeError, which lands in the
catch).  The catch block converts any thrown error into a structured
error response. -/
def testNlSearchRun (body : Except String String) : McpToolResponse :=
  match body with
  | Except.ok report => { content := [ContentBlock.text report] }
  | Except.error e =>
    { content := [ContentBlock.text ("Error processing natural language test: " ++ e)],
      isError := some true }

/-- The `echo` tool handler. -/
def echoRun (message : String) : McpToolResponse :=
  { content := [ContentBlock.text ("Hello " ++ message)] }

/-- The `debug` tool handler returns one text block holding the fixed
serialized capability listing; the listing text itself is irrelevant to
the claims and is a parameter. -/
def debugRun (infoJson : String) : McpToolResponse :=
  { content := [ContentBlock.text infoJson] }

/-- The `nl-search-help` tool handler returns one fixed help text block. -/
def nlSearchHelpRun (helpText : String) : McpToolResponse :=
  { content := [ContentBlock.text helpText] }

/-- The `deep-code-researcher` placeholder tool handler. -/
def deepResearchRun (query : String) : McpToolResponse :=
  { content := [ContentBlock.text
      ("Research query '" ++ query ++ "' processed. Implementation pending.")] }

/-- The `test-connection` tool handler: credential guard, one probe call
to the Sourcegraph API (outcome abstracted like the search calls), catch
at the boundary. -/
def testConnectionRun (cfg : SgConfig) (net : SgOutcome) : McpToolResponse :=
  if strFalsy cfg.url || strFalsy cfg.token then configErrorResponse
  else
    match net with
    | SgOutcome.thrown e =>
      { content := [ContentBlock.text ("❌ Error connecting to Sourcegraph API: " ++ e)],
        isError := some true }
    | SgOutcome.apiErrors errs =>
      { content := [ContentBlock.text ("Sourcegraph API Error: " ++ errs)],
        isError := some true }
    | SgOutcome.ok okText =>
      { content := [ContentBlock.text okText] }

/-- "type:" as a character list, for the duplicate-directive theorem. -/

def typePat : List Char := ['t', 'y', 'p', 'e', ':']

def countSuffixPat : List Char := [' ', 'c', 'o', 'u', 'n', 't', ':', '2', '0']

/-! ## Theorems -/

/-- A successful lookup finds a binding of the registry. -/
theorem lookupReg_mem (reg : Registry) (s : String) (h : Handle)
    (hl : lookupReg reg s = some h) : (s, h) ∈ reg := by
  induction reg with
  | nil => simp [lookupReg] at hl
  | cons p rest ih =>
    obtain ⟨k, v⟩ := p
    by_cases hk : k = s
    · subst hk
      simp [lookupReg] at hl
      simp [hl]
    · simp [lookupReg, hk] at hl
      exact List.mem_cons_of_mem _ (ih hl)

/-- `setEntry` makes the key look up to the new handle. -/
theorem lookupReg_setEntry_self (reg : Registry) (s : String) (h : Handle) :
    lookupReg (setEntry reg s h) s = some h := by
  induction reg with
  | nil => simp [setEntry, lookupReg]
  | cons p rest ih =>
    obtain ⟨k, v⟩ := p
    by_cases hk : k = s
    · simp [setEntry, hk, lookupReg]
    · simp [setEntry, hk, lookupReg, ih]

/-- Bindings surviving `closeSession` were already there, under another key. -/
theorem mem_closeSession (reg : Registry) (sid : String) (p : String × Handle)
    (hp : p ∈ closeSession sid reg) : p ∈ reg ∧ p.1 ≠ sid := by
  induction reg with
  | nil => simp [closeSession] at hp
  | cons q rest ih =>
    obtain ⟨k, v⟩ := q
    by_cases hk : k = sid
    · simp [closeSession, hk] at hp
      obtain ⟨hmem, hne⟩ := ih hp
      exact ⟨List.mem_cons_of_mem _ hmem, hne⟩
    · simp [closeSession, hk] at hp
      rcases hp with hp | hp
      · subst hp
        simp [hk]
      · obtain ⟨hmem, hne⟩ := ih hp
        exact ⟨List.mem_cons_of_mem _ hmem, hne⟩

/-- A routed handle is a handle of some binding of the registry. -/
theorem routeMessage_routed_mem (reg : Registry) (q : Option String) (h : Handle)
    (hr : routeMessage q reg = RouteResult.routed h) : ∃ k, (k, h) ∈ reg := by
  have hfall : ∀ r : Registry, fallbackRoute r = RouteResult.routed h →
      ∃ k, (k, h) ∈ r := by
    intro r hr'
    match r with
    | [] => simp [fallbackRoute] at hr'
    | (k, v) :: rest =>
      simp [fallbackRoute] at hr'
      exact ⟨k, by simp [hr']⟩
  match q with
  | none => exact hfall reg hr
  | some s =>
    by_cases hs : s = ""
    · rw [routeMessage, if_pos hs] at hr
      exact hfall reg hr
    · rw [routeMessage, if_neg hs] at hr
      cases hl : lookupReg reg s with
      | none => rw [hl] at hr; exact hfall reg hr
      | some v =>
        rw [hl] at hr
        simp at hr
        subst hr
        exact ⟨s, lookupReg_mem reg s _ hl⟩

/-- C1: the `POST /messages` handler follows the three-step tie-break
policy: a supplied (non-empty) session id with a binding routes to
exactly that binding's handle; an absent, empty or unknown session id
routes to the first registered session in registry iteration order when
one exists; an empty registry yields the HTTP 400 "No active
connections" answer and no forwarding. -/
theorem routeMessage_tie_break (reg : Registry) (sid? : Option String) :
    (∀ s h, sid? = some s → s ≠ "" → lookupReg reg s = some h →
      routeMessage sid? reg = RouteResult.routed h) ∧
    ((∀ s, sid? = some s → s ≠ "" → lookupReg reg s = none) →
      ∀ k h rest, reg = (k, h) :: rest →
        routeMessage sid? reg = RouteResult.routed h) ∧
    (reg = [] → routeMessage sid? reg = RouteResult.noActive) := by
  refine ⟨?_, ?_, ?_⟩
  · intro s h hs hne hl
    subst hs
    rw [routeMessage, if_neg hne, hl]
  · intro habs k h rest hreg
    subst hreg
    match sid? with
    | none => rfl
    | some s =>
      by_cases hs : s = ""
      · rw [routeMessage, if_pos hs]; rfl
      · rw [routeMessage, if_neg hs, habs s rfl hs]; rfl
  · intro hreg
    subst hreg
    match sid? with
    | none => rfl
    | some s =>
      by_cases hs : s = ""
      · rw [routeMessage, if_pos hs]; rfl
      · rw [routeMessage, if_neg hs]; rfl

theorem routeMessage_tie_break_witness :
    routeMessage (some "a") [("a", 5)] = RouteResult.routed 5 ∧
    routeMessage (some "zz") [("a", 5), ("b", 7)] = RouteResult.routed 5 ∧
    routeMessage none ([] : Registry) = RouteResult.noActive :=
  ⟨(routeMessage_tie_break [("a", 5)] (some "a")).1 "a" 5 rfl (by decide) (by decide),
   (routeMessage_tie_break [("a", 5), ("b", 7)] (some "zz")).2.1
     (by intro s hs _; cases hs; decide) "a" 5 [("b", 7)] rfl,
   (routeMessage_tie_break [] none).2.2 rfl⟩

/-- C2 counterexample: the source stores the transport in `connections`
BEFORE `await server.connect(transport)` and the catch block does not
remove it, so after a failed attach the session IS present in the
registry (here: open on the empty registry with id "s1", connect throws,
headers not sent: the caller gets the 500 error, yet "s1" is registered). -/
theorem openSession_failure_counterexample :
    (openSession [] (some "s1") "r" "t" 7 (Except.error "boom") false).2
        = OpenResult.error500 "boom" ∧
    (openSession [] (some "s1") "r" "t" 7 (Except.error "boom") false).1
        = [("s1", 7)] ∧
    lookupReg (openSession [] (some "s1") "r" "t" 7 (Except.error "boom") false).1 "s1"
        = some 7 := by
  refine ⟨rfl, rfl, rfl⟩

/-- C2 (amended): `openSession` registers the session before attaching
the protocol server; when attaching throws, the session remains in the
registry (the registry afterwards is exactly the previous registry with
the new binding set), and if response headers have not yet been sent an
error status is returned to the caller instead of a stream, while after
headers were sent the failure is only logged. -/
theorem openSession_failure_behavior (reg : Registry) (requested : Option String)
    (randFrag timeFrag : String) (h : Handle) (e : String) :
    (openSession reg requested randFrag timeFrag h (Except.error e) false).1
        = setEntry reg (effectiveSessionId requested randFrag timeFrag) h ∧
    (openSession reg requested randFrag timeFrag h (Except.error e) false).2
        = OpenResult.error500 e ∧
    (openSession reg requested randFrag timeFrag h (Except.error e) true).2
        = OpenResult.loggedOnly e ∧
    lookupReg (openSession reg requested randFrag timeFrag h (Except.error e) false).1
        (effectiveSessionId requested randFrag timeFrag) = some h :=
  ⟨rfl, rfl, rfl, lookupReg_setEntry_self reg _ h⟩

/-- C3: once `closeSession sid` has removed a session whose handle `h`
belongs to no other session (transport handles are created fresh per
connection), no later `routeMessage` call forwards to `h`, whatever
session id it is given; and if the closed session was the only one, any
later `routeMessage` fails with the "No active connections" condition. -/
theorem route_after_close (reg : Registry) (sid : String) (h : Handle)
    (huniq : ∀ p ∈ reg, p.2 = h → p.1 = sid) :
    (∀ q, routeMessage q (closeSession sid reg) ≠ RouteResult.routed h) ∧
    (reg = [(sid, h)] →
      ∀ q, routeMessage q (closeSession sid reg) = RouteResult.noActive) := by
  constructor
  · intro q hr
    obtain ⟨k, hk⟩ := routeMessage_routed_mem _ q h hr
    obtain ⟨hmem, hne⟩ := mem_closeSession reg sid (k, h) hk
    exact hne (huniq (k, h) hmem rfl)
  · intro hreg q
    subst hreg
    have hclosed : closeSession sid [(sid, h)] = [] := by
      simp [closeSession]
    rw [hclosed]
    match q with
    | none => rfl
    | some s =>
      by_cases hs : s = ""
      · rw [routeMessage, if_pos hs]; rfl
      · rw [routeMessage, if_neg hs]; rfl

theorem route_after_close_witness :
    routeMessage (some "a") (closeSession "a" [("a", 1), ("b", 2)])
        ≠ RouteResult.routed 1 ∧
    routeMessage (some "a") (closeSession "a" [("a", 1)]) = RouteResult.noActive :=
  ⟨(route_after_close [("a", 1), ("b", 2)] "a" 1 (by decide)).1 (some "a"),
   (route_after_close [("a", 1)] "a" 1 (by decide)).2 rfl (some "a")⟩

/-- C9: `closeSession` is idempotent: it removes the binding of the given
session id (the id no longer looks up afterwards), closing an id with no
binding leaves the registry unchanged, and closing twice equals closing
once. -/
theorem closeSession_idempotent (reg : Registry) (sid : String) :
    lookupReg (closeSession sid reg) sid = none ∧
    (lookupReg reg sid = none → closeSession sid reg = reg) ∧
    closeSession sid (closeSession sid reg) = closeSession sid reg := by
  refine ⟨?_, ?_, ?_⟩
  · induction reg with
    | nil => rfl
    | cons p rest ih =>
      obtain ⟨k, v⟩ := p
      by_cases hk : k = sid
      · simp [closeSession, hk, ih]
      · simp [closeSession, hk, lookupReg, ih]
  · induction reg with
    | nil => intro _; rfl
    | cons p rest ih =>
      obtain ⟨k, v⟩ := p
      intro hl
      by_cases hk : k = sid
      · simp [lookupReg, hk] at hl
      · simp [lookupReg, hk] at hl
        simp [closeSession, hk, ih hl]
  · induction reg with
    | nil => rfl
    | cons p rest ih =>
      obtain ⟨k, v⟩ := p
      by_cases hk : k = sid
      · simp [closeSession, hk, ih]
      · simp [closeSession, hk, ih]

theorem closeSession_idempotent_witness :
    lookupReg (closeSession "x" [("a", 1)]) "x" = none ∧
    closeSession "x" [("a", 1)] = [("a", 1)] ∧
    closeSession "x" (closeSession "x" [("a", 1)]) = closeSession "x" [("a", 1)] :=
  ⟨(closeSession_idempotent [("a", 1)] "x").1,
   (closeSession_idempotent [("a", 1)] "x").2.1 (by decide),
   (closeSession_idempotent [("a", 1)] "x").2.2⟩

/-- C10: handling a `POST /messages` request leaves the session registry
unchanged, for every registry state and every (present, absent, known or
unknown) session id; and any event that does change the registry is a
connection open or a connection close. -/
theorem routeMessage_frame (reg : Registry) (sid? : Option String) (e : ServerEvent) :
    (handleMessages sid? reg).1 = reg ∧
    serverStep (ServerEvent.postMessage sid?) reg = reg ∧
    (serverStep e reg ≠ reg → isOpenOrClose e = true) := by
  refine ⟨rfl, rfl, ?_⟩
  intro hne
  match e with
  | ServerEvent.sseConnect _ _ _ _ _ _ => rfl
  | ServerEvent.postMessage q => exact absurd rfl hne
  | ServerEvent.connClose _ => rfl

theorem routeMessage_frame_witness :
    (handleMessages (some "a") [("a", 1)]).1 = [("a", 1)] ∧
    serverStep (ServerEvent.postMessage (some "a")) [("a", 1)] = [("a", 1)] ∧
    isOpenOrClose (ServerEvent.connClose "a") = true :=
  ⟨(routeMessage_frame [("a", 1)] (some "a") (ServerEvent.connClose "a")).1,
   (routeMessage_frame [("a", 1)] (some "a") (ServerEvent.connClose "a")).2.1,
   (routeMessage_frame [("a", 1)] (some "a") (ServerEvent.connClose "a")).2.2
     (by decide)⟩

/-! ## Theorems about the tool handlers and the translator -/

/-- C4: every registered tool handler (echo, search-code, search-commits,
search-diffs, search-github-repos, natural-search, test-nl-search,
test-connection, nl-search-help, debug, deep-code-researcher) is total
with respect to errors: for every input and every effect outcome -
including a thrown exception - the handler resolves to a structured
response made of exactly one text content block; a thrown executor (or
try-body) error is converted at the handler boundary into a response
with isError true instead of propagating, so the process survives and
the session stays usable. -/
theorem tool_handlers_total (q : String) (tp : SearchType) (cfg : SgConfig)
    (net : SgOutcome) (env : LlmEnv) (nq : String)
    (pc : Except String String) (net2 : SgOutcome)
    (body : Except String String) (e : String)
    (a2 m2 d2 q3 a3 d3 : Option String) (q4 r4 : String) (tp4 : SearchType)
    (mr : Option Nat) (n2 n3 n4 n5 n6 : SgOutcome)
    (msg infoJson helpText rq : String) :
    isWellFormed (searchCodeRun q tp cfg net).1 = true ∧
    isWellFormed (searchCommitsRun a2 m2 d2 cfg n2).1 = true ∧
    isWellFormed (searchDiffsRun q3 a3 d3 cfg n3).1 = true ∧
    isWellFormed (searchGithubReposRun q4 r4 tp4 cfg n4).1 = true ∧
    isWellFormed (naturalSearchRun nq mr cfg env pc n5).1 = true ∧
    isWellFormed (naturalLanguageSearch env nq pc net2).1 = true ∧
    isWellFormed (testNlSearchRun body) = true ∧
    isWellFormed (testConnectionRun cfg n6) = true ∧
    isWellFormed (echoRun msg) = true ∧
    isWellFormed (debugRun infoJson) = true ∧
    isWellFormed (nlSearchHelpRun helpText) = true ∧
    isWellFormed (deepResearchRun rq) = true ∧
    (searchCodeRun q tp cfg (SgOutcome.thrown e)).1.isError = some true ∧
    (naturalLanguageSearch env nq pc (SgOutcome.thrown e)).1.isError = some true ∧
    (testNlSearchRun (Except.error e)).isError = some true := by
  refine ⟨?_, ?_, ?_, ?_, ?_, ?_, ?_, ?_, rfl, rfl, rfl, rfl, ?_, ?_, rfl⟩
  · unfold searchCodeRun
    split
    · rfl
    · cases net <;> rfl
  · unfold searchCommitsRun
    split
    · rfl
    · cases n2 <;> rfl
  · unfold searchDiffsRun
    split
    · rfl
    · cases n3 <;> rfl
  · unfold searchGithubReposRun
    split
    · rfl
    · cases n4 <;> rfl
  · unfold naturalSearchRun
    split
    · rfl
    · unfold naturalLanguageSearch
      split <;> (dsimp only; split <;> rfl)
  · unfold naturalLanguageSearch
    split <;> (dsimp only; split <;> rfl)
  · cases body <;> rfl
  · unfold testConnectionRun
    split
    · rfl
    · cases n6 <;> rfl
  · unfold searchCodeRun
    split
    · rfl
    · rfl
  · unfold naturalLanguageSearch
    split <;> (dsimp only; split <;> first | rfl | simp_all)

/-- C5: when `SOURCEGRAPH_URL` or `SOURCEGRAPH_TOKEN` is unset, each of
the five search tools returns the configuration-error response with
isError true from its credential guard, and its executor - the only
network call - is never invoked (second component `none`). -/
theorem credential_guard (q1 : String) (tp1 : SearchType)
    (a2 m2 d2 q3 a3 d3 : Option String) (q4 r4 : String) (tp4 : SearchType)
    (q5 : String) (mr : Option Nat) (env : LlmEnv)
    (pc : Except String String) (n1 n2 n3 n4 n5 : SgOutcome) (cfg : SgConfig)
    (hcfg : cfg.url = none ∨ cfg.token = none) :
    searchCodeRun q1 tp1 cfg n1 = (configErrorResponse, none) ∧
    searchCommitsRun a2 m2 d2 cfg n2 = (configErrorResponse, none) ∧
    searchDiffsRun q3 a3 d3 cfg n3 = (configErrorResponse, none) ∧
    searchGithubReposRun q4 r4 tp4 cfg n4 = (configErrorResponse, none) ∧
    naturalSearchRun q5 mr cfg env pc n5 = (configErrorResponse, none) ∧
    configErrorResponse.isError = some true := by
  have hmiss : credsMissing cfg = true := by
    rcases hcfg with h | h <;> simp [credsMissing, strFalsy, h]
  refine ⟨?_, ?_, ?_, ?_, ?_, rfl⟩ <;>
    simp [searchCodeRun, searchCommitsRun, searchDiffsRun,
      searchGithubReposRun, naturalSearchRun, hmiss]

theorem credential_guard_witness :
    searchCodeRun "q" SearchType.file ⟨none, some "t"⟩ (SgOutcome.ok "r")
      = (configErrorResponse, none) ∧
    naturalSearchRun "q" none ⟨some "u", none⟩ ⟨none, none, none⟩
        (Except.ok "c") (SgOutcome.ok "r")
      = (configErrorResponse, none) :=
  ⟨(credential_guard "q" SearchType.file none none none none none none "" ""
      SearchType.file "" none ⟨none, none, none⟩ (Except.ok "c")
      (SgOutcome.ok "r") (SgOutcome.ok "r") (SgOutcome.ok "r")
      (SgOutcome.ok "r") (SgOutcome.ok "r") ⟨none, some "t"⟩
      (Or.inl rfl)).1,
   (credential_guard "q" SearchType.file none none none none none none "" ""
      SearchType.file "q" none ⟨none, none, none⟩ (Except.ok "c")
      (SgOutcome.ok "r") (SgOutcome.ok "r") (SgOutcome.ok "r")
      (SgOutcome.ok "r") (SgOutcome.ok "r") ⟨some "u", none⟩
      (Or.inr rfl)).2.2.2.2.1⟩

/-- C7: with valid (set, non-empty) credentials, the `search-code` tool
called with query "foo" and type file hands exactly the string
"foo type:file count:20" to the search executor. -/
theorem search_code_scenario (cfg : SgConfig) (net : SgOutcome)
    (hu : ∃ u, cfg.url = some u ∧ u ≠ "")
    (ht : ∃ t, cfg.token = some t ∧ t ≠ "") :
    (searchCodeRun "foo" SearchType.file cfg net).2
      = some "foo type:file count:20" := by
  obtain ⟨u, hu1, hu2⟩ := hu
  obtain ⟨t, ht1, ht2⟩ := ht
  have hmiss : credsMissing cfg = false := by
    simp [credsMissing, strFalsy, hu1, ht1, hu2, ht2]
  have hq : buildSearchCodeQuery "foo" SearchType.file
      = "foo type:file count:20" := by decide
  unfold searchCodeRun
  rw [hmiss]
  cases net <;> simp [hq]

theorem search_code_scenario_witness :
    (searchCodeRun "foo" SearchType.file
        ⟨some "https://sourcegraph.example", some "tok"⟩ (SgOutcome.ok "r")).2
      = some "foo type:file count:20" :=
  search_code_scenario ⟨some "https://sourcegraph.example", some "tok"⟩
    (SgOutcome.ok "r") ⟨"https://sourcegraph.example", rfl, by decide⟩
    ⟨"tok", rfl, by decide⟩

theorem typePat_eq : "type:".data = typePat := rfl

theorem countSuffixPat_eq : " count:20".data = countSuffixPat := rfl

/-- Appending " count:20" creates no new "type:" occurrence: an
occurrence spanning the boundary would have to contain the leading
space, and "type:" has none, while " count:20" itself contains no
"type:". -/
theorem subPrefAt_typePat_append (c : Char) (s : List Char) :
    subPrefAt typePat (c :: (s ++ countSuffixPat)) = subPrefAt typePat (c :: s) := by
  match s with
  | [] => rfl
  | [_] => rfl
  | [_, _] => rfl
  | [_, _, _] => rfl
  | _ :: _ :: _ :: _ :: _ => rfl

theorem countSubL_typePat_append (s : List Char) :
    countSubL typePat (s ++ countSuffixPat) = countSubL typePat s := by
  induction s with
  | nil => rfl
  | cons c cs ih =>
    simp only [List.cons_append, countSubL, List.append_eq,
      subPrefAt_typePat_append, ih]

/-- C8: for a query that already contains a `type:` directive, the
`search-code` query builder appends no second one: the number of
`type:` occurrences in the constructed query equals the number in the
input. -/
theorem no_duplicate_type_directive (q : String) (tp : SearchType)
    (h : containsSubstr q "type:" = true) :
    countSubstr (buildSearchCodeQuery q tp) "type:" = countSubstr q "type:" := by
  unfold buildSearchCodeQuery
  rw [h]
  by_cases hc : containsSubstr q "count:" = true
  · rw [if_pos rfl, if_pos hc]
  · rw [if_pos rfl, if_neg hc]
    unfold countSubstr
    rw [typePat_eq]
    obtain ⟨l⟩ := q
    exact countSubL_typePat_append l

theorem no_duplicate_type_directive_witness :
    containsSubstr "bar type:file" "type:" = true ∧
    countSubstr (buildSearchCodeQuery "bar type:file" SearchType.diff) "type:"
      = countSubstr "bar type:file" "type:" :=
  ⟨by decide, no_duplicate_type_directive "bar type:file" SearchType.diff (by decide)⟩

/-- C6 counterexample: with an LLM provider configured and the provider
call throwing, the translator on the input "find commits" does fall back
to the rule-based transform, but the fallback strips the filler word
"find" and the type indicator "commits" and returns an EMPTY query
string, refuting the claimed non-emptiness. -/
theorem analyzeQuery_empty_counterexample :
    (analyzeQuery ⟨some "openai", some "key", none⟩ "find commits"
        (Except.error "network error")).query = "" ∧
    analyzeQuery ⟨some "openai", some "key", none⟩ "find commits"
        (Except.error "network error")
      = parseWithRules "find commits" := by
  exact ⟨by decide, by decide⟩

/-- C6 (amended): with an LLM provider configured, whenever the provider
call throws, `analyzeQuery` never propagates the exception and falls
back to the local rule-based transform (it returns exactly
`parseWithRules` of the input) - but the query component of that result
may be empty. -/
theorem analyzeQuery_fallback (env : LlmEnv) (q e : String)
    (hconf : llmConfigured env = true) :
    analyzeQuery env q (Except.error e) = parseWithRules q := by
  have hcond : (strFalsy env.provider
      || (strFalsy env.openAiKey && strFalsy env.anthropicKey)) = false := by
    revert hconf
    unfold llmConfigured
    cases strFalsy env.provider || (strFalsy env.openAiKey && strFalsy env.anthropicKey) <;>
      simp
  have hres : ∃ msg, convertQueryToSourcegraphSyntax env q (Except.error e)
      = Except.error msg := by
    unfold convertQueryToSourcegraphSyntax
    rw [hcond]
    simp only [Bool.false_eq_true, if_false]
    split
    · split
      · exact ⟨_, rfl⟩
      · exact ⟨e, rfl⟩
    · split
      · split
        · exact ⟨_, rfl⟩
        · exact ⟨e, rfl⟩
      · exact ⟨_, rfl⟩
  obtain ⟨msg, hmsg⟩ := hres
  unfold analyzeQuery
  rw [hmsg]

theorem analyzeQuery_fallback_witness :
    analyzeQuery ⟨some "anthropic", none, some "k"⟩ "show me diffs"
        (Except.error "boom")
      = parseWithRules "show me diffs" :=
  analyzeQuery_fallback ⟨some "anthropic", none, some "k"⟩ "show me diffs"
    "boom" (by decide)
